import Mathlib

/-!
Verification of the Solana-Eth-Bridge locker program (src/program-rust).

Shallow embedding of the instruction decoder (instruction.rs), the binary
state layouts (state.rs), the decimal rescaler and the bridge processor
(processor.rs).  Bytes are naturals below 256; byte buffers are lists of
naturals; u64 values are naturals and unchecked u64 arithmetic is taken
modulo 2^64 (the release-profile semantics a deployed BPF program runs
with); the 256-bit `U256` type of the spl-math crate is modelled as naturals
below 2^256 whose arithmetic aborts on overflow, which is what the `uint`
crate's panicking operators do.
-/

namespace SolEthBridge

/-! ### Little-endian and big-endian byte encoding of naturals -/

/-- Write `n` as `len` little-endian bytes (least significant first),
truncating above `256 ^ len` exactly as a fixed-width store does. -/
def natToLE : Nat → Nat → List Nat
  | 0, _ => []
  | len + 1, n => n % 256 :: natToLE len (n / 256)

/-- Read a little-endian byte list back into a natural. -/
def natFromLE : List Nat → Nat
  | [] => 0
  | b :: bs => b + 256 * natFromLE bs

/-- Write `n` as `len` big-endian bytes (most significant first), the layout
`U256::to_big_endian` uses for the event-log amount. -/
def natToBE (len n : Nat) : List Nat := (natToLE len n).reverse

/-- Read a big-endian byte list back into a natural
(`U256::from_big_endian`). -/
def natFromBE (bs : List Nat) : Nat := natFromLE bs.reverse

/-! ### Errors

`ProgramError` values the program can surface.  A `LockerError` is carried
as `ProgramError::Custom(e as u32)` with discriminants 0, 1, 2 (error.rs).
`panicAbort` stands for a Rust panic (an out-of-bounds `array_ref!` slice or
an overflowing `uint` operation), which aborts the whole invocation. -/

inductive PErr
  | custom (code : Nat)
  | invalidInstructionData
  | invalidAccountData
  | missingRequiredSignature
  | uninitializedAccount
  | notEnoughAccountKeys
  | incorrectProgramId
  | panicAbort
deriving DecidableEq

inductive LockerError
  | invalidAuthority
  | invalidInstruction
  | unexpectedDecimalConversion
deriving DecidableEq

/-- `impl From<LockerError> for ProgramError` (error.rs): `Custom(e as u32)`. -/
def LockerError.toPErr : LockerError → PErr
  | .invalidAuthority => .custom 0
  | .invalidInstruction => .custom 1
  | .unexpectedDecimalConversion => .custom 2

instance {ε α : Type} [DecidableEq ε] [DecidableEq α] : DecidableEq (Except ε α) :=
  fun x y =>
    match x, y with
    | .ok a, .ok b =>
      if h : a = b then .isTrue (by rw [h]) else .isFalse (by intro hc; cases hc; exact h rfl)
    | .ok _, .error _ => .isFalse (by intro hc; cases hc)
    | .error _, .ok _ => .isFalse (by intro hc; cases hc)
    | .error e, .error f =>
      if h : e = f then .isTrue (by rw [h]) else .isFalse (by intro hc; cases hc; exact h rfl)

/-! ### Wire codec (instruction.rs) -/

/-- Modelled from the spec: `crate::types` is not among the sources, so the
destination-chain address length is fixed here.  The spec states only that it
is a compile-time constant that must match across decode and encode; the
in-repo pack test (state.rs, a 64-byte log buffer with `LOGSIZE = 32 + N`)
pins the value at 32. -/
def DESTINATION_CHAIN_ADDRESS_LEN : Nat := 32

/-- The five decoded operations (`LockerInstruction` in instruction.rs),
with the per-operation payload structs inlined. -/
inductive LockerInstruction
  | locInit (authority : List Nat)
  | lockAndMint (amount : Nat) (destination : List Nat)
  | release (amount : Nat)
  | mint (amount : Nat)
  | burnAndRelease (amount : Nat) (destination : List Nat)
deriving DecidableEq

namespace LockerInstruction

/-- `LockerInstruction::unpack_amount`: the first 8 bytes interpreted as a
little-endian u64, `InvalidInstruction` if fewer than 8 bytes remain. -/
def unpack_amount (input : List Nat) : Except PErr Nat :=
  if 8 ≤ input.length then .ok (natFromLE (input.take 8))
  else .error LockerError.invalidInstruction.toPErr

/-- `LockerInstruction::unpack` (instruction.rs lines 54-115). -/
def unpack (input : List Nat) : Except PErr LockerInstruction :=
  match input with
  | [] => .error LockerError.invalidInstruction.toPErr
  | tag :: rest =>
    match tag with
    | 0 =>
      if 32 ≤ rest.length then
        -- <[u8; 32]>::try_from succeeds only on exactly 32 bytes
        if rest.length = 32 then .ok (.locInit rest)
        else .error LockerError.invalidAuthority.toPErr
      else .error LockerError.invalidAuthority.toPErr
    | 1 =>
      if 8 + DESTINATION_CHAIN_ADDRESS_LEN ≤ rest.length then
        .ok (.lockAndMint (natFromLE (rest.take 8))
          ((rest.drop 8).take DESTINATION_CHAIN_ADDRESS_LEN))
      else .error LockerError.invalidInstruction.toPErr
    | 2 =>
      if rest.length = 8 then
        match unpack_amount rest with
        | .ok a => .ok (.release a)
        | .error e => .error e
      else .error LockerError.invalidInstruction.toPErr
    | 3 =>
      if rest.length = 8 then
        match unpack_amount rest with
        | .ok a => .ok (.mint a)
        | .error e => .error e
      else .error LockerError.invalidInstruction.toPErr
    | 4 =>
      if 8 + DESTINATION_CHAIN_ADDRESS_LEN ≤ rest.length then
        .ok (.burnAndRelease (natFromLE (rest.take 8))
          ((rest.drop 8).take DESTINATION_CHAIN_ADDRESS_LEN))
      else .error LockerError.invalidInstruction.toPErr
    | _ => .error .invalidInstructionData

/-- Modelled from the spec: the repository contains no Rust encoder (payloads
are built by off-chain clients), so this inverse follows the wire-format
table of spec section 4.1 — one tag byte, little-endian amounts, raw
authority/destination bytes. -/
def packBytes : LockerInstruction → List Nat
  | .locInit a => 0 :: a
  | .lockAndMint amt d => 1 :: (natToLE 8 amt ++ d)
  | .release amt => 2 :: natToLE 8 amt
  | .mint amt => 3 :: natToLE 8 amt
  | .burnAndRelease amt d => 4 :: (natToLE 8 amt ++ d)

/-- Well-formed operations: field widths as carried by the Rust structs
(32-byte authority, u64 amounts, fixed-width destinations). -/
def wf : LockerInstruction → Prop
  | .locInit a => a.length = 32
  | .lockAndMint amt d => amt < 2 ^ 64 ∧ d.length = DESTINATION_CHAIN_ADDRESS_LEN
  | .release amt => amt < 2 ^ 64
  | .mint amt => amt < 2 ^ 64
  | .burnAndRelease amt d => amt < 2 ^ 64 ∧ d.length = DESTINATION_CHAIN_ADDRESS_LEN

end LockerInstruction

/-! ### Binary state layouts (state.rs) -/

def STATESIZE : Nat := 49
def LOGSIZE : Nat := 32 + DESTINATION_CHAIN_ADDRESS_LEN

/-- The bridge-ledger singleton record (`Locker` in state.rs).  The 32-byte
`Pubkey` authority is carried as its byte list. -/
structure Locker where
  is_initialized : Bool
  authority : List Nat
  total_locked : Nat
  total_minted : Nat
deriving DecidableEq

namespace Locker

/-- `Locker::unpack_from_slice`: layout `[0] = init flag, [1..33) = authority,
[33..41) = total_locked LE u64, [41..49) = total_minted LE u64`.  The
`array_ref!` macro panics when the slice is shorter than 49 bytes. -/
def unpack_from_slice (src : List Nat) : Except PErr Locker :=
  if src.length < 49 then .error .panicAbort
  else
    let flag := src.take 1
    let authority := (src.drop 1).take 32
    let locked := natFromLE ((src.drop 33).take 8)
    let minted := natFromLE ((src.drop 41).take 8)
    match flag with
    | [0] => .ok ⟨false, authority, locked, minted⟩
    | [1] => .ok ⟨true, authority, locked, minted⟩
    | _ => .error .invalidAccountData

/-- `Pack::unpack_unchecked` (solana program_pack): rejects a buffer whose
length differs from `Locker::LEN = 49`, then reads the slice. -/
def unpack_unchecked (src : List Nat) : Except PErr Locker :=
  if src.length = 49 then unpack_from_slice src
  else .error .invalidAccountData

/-- `Locker::pack_into_slice`: the 49-byte image the record is stored as. -/
def packBytes (l : Locker) : List Nat :=
  (if l.is_initialized then [1] else [0]) ++ l.authority
    ++ natToLE 8 l.total_locked ++ natToLE 8 l.total_minted

end Locker

/-- The single-slot mint-event record (`LockAndMintLog` in state.rs):
a 256-bit big-endian amount followed by the destination-chain address.
`BurnAndReleaseLog` has the identical layout. -/
structure LockAndMintLog where
  amount : Nat
  recipient : List Nat
deriving DecidableEq

namespace LockAndMintLog

/-- `LockAndMintLog::unpack_from_slice`: 32 big-endian amount bytes, then
the recipient bytes.  `array_ref!` panics on a short slice. -/
def unpack_from_slice (src : List Nat) : Except PErr LockAndMintLog :=
  if src.length < LOGSIZE then .error .panicAbort
  else .ok ⟨natFromBE (src.take 32), (src.drop 32).take DESTINATION_CHAIN_ADDRESS_LEN⟩

/-- `Pack::unpack_unchecked` at `LockAndMintLog::LEN = LOGSIZE`. -/
def unpack_unchecked (src : List Nat) : Except PErr LockAndMintLog :=
  if src.length = LOGSIZE then unpack_from_slice src
  else .error .invalidAccountData

/-- `LockAndMintLog::pack_into_slice`: the stored byte image. -/
def packBytes (lg : LockAndMintLog) : List Nat :=
  natToBE 32 lg.amount ++ lg.recipient

end LockAndMintLog

/-! ### Decimal rescaler (processor.rs lines 413-447)

`U256` arithmetic from the `uint` crate panics on overflow, so each
operation that can exceed 2^256 is modelled as fallible. -/

/-- `U256::exp10(n)` — 10^n built by repeated multiplication; any
intermediate (equivalently, the final value) above `U256::MAX` panics. -/
def exp10U256 (n : Nat) : Except PErr Nat :=
  if 10 ^ n < 2 ^ 256 then .ok (10 ^ n) else .error .panicAbort

/-- `U256` multiplication; panics when the product overflows 256 bits. -/
def mulU256 (a b : Nat) : Except PErr Nat :=
  if a * b < 2 ^ 256 then .ok (a * b) else .error .panicAbort

/-- `U256::as_u64` — panics when the value does not fit in 64 bits. -/
def asU64 (a : Nat) : Except PErr Nat :=
  if a < 2 ^ 64 then .ok a else .error .panicAbort

namespace Processor

/-- `Processor::spl_amount_from_underlying_amount`: narrow an underlying
(256-bit) amount to the native u64 width, truncating by `10^(diff)` when the
underlying precision is larger, and failing on an unsupported direction or a
result that does not fit in a u64. -/
def spl_amount_from_underlying_amount
    (underlying_decimals spl_decimals : Nat) (underlying_amount : Nat) :
    Except PErr Nat :=
  if underlying_decimals = spl_decimals then asU64 underlying_amount
  else if spl_decimals < underlying_decimals then
    match exp10U256 (underlying_decimals - spl_decimals) with
    | .error e => .error e
    | .ok p =>
      let spl_amount := underlying_amount / p
      if spl_amount < 2 ^ 64 then .ok spl_amount
      else .error LockerError.unexpectedDecimalConversion.toPErr
  else .error LockerError.unexpectedDecimalConversion.toPErr

/-- `Processor::underlying_amount_from_spl_amount`: widen a native u64 amount
into the 256-bit underlying precision by multiplying with `10^(diff)`. -/
def underlying_amount_from_spl_amount
    (underlying_decimals spl_decimals : Nat) (spl_amount : Nat) :
    Except PErr Nat :=
  if underlying_decimals = spl_decimals then .ok spl_amount
  else if spl_decimals < underlying_decimals then
    match exp10U256 (underlying_decimals - spl_decimals) with
    | .error e => .error e
    | .ok p => mulU256 spl_amount p
  else .error LockerError.unexpectedDecimalConversion.toPErr

end Processor

/-! ### Bridge processor (processor.rs)

An `AccountInfo` carries the fields the processor reads: address, signer
flag, owning program and the account's data bytes.  `Pubkey` values are
their 32-byte lists.  External host primitives — `find_program_address`
(seeds `"Locker"+"Init"/"Mint"/"Burn"`) and the spl-token program id — are
supplied through `Env`, since they live outside this repository.  Calls the
processor delegates to the host (`invoke` / `invoke_signed` of a transfer,
mint-to or burn instruction) are recorded as `Effect`s in call order, and an
`Outcome` keeps the account list as it stands when the function returns, so
a state write that precedes a failing later check is visible. -/

structure AccountInfo where
  key : List Nat
  is_signer : Bool
  owner : List Nat
  data : List Nat
deriving DecidableEq

inductive Seed
  | seedInit
  | seedMint
  | seedBurn
deriving DecidableEq

structure Env where
  derive : Seed → List Nat → List Nat × Nat
  splTokenId : List Nat

/-- `system_program::id()` is the all-zero address. -/
def system_program_id : List Nat := List.replicate 32 0

inductive Effect
  | transferLamports (source dest : List Nat) (amount : Nat)
  | mintTo (tokenProg minter recipient authority : List Nat) (amount : Nat)
deriving DecidableEq

structure Outcome where
  result : Except PErr Unit
  accounts : List AccountInfo
  effects : List Effect

/-- Unchecked u64 addition: a release-profile `+=` wraps modulo 2^64. -/
def wrapAdd (a b : Nat) : Nat := (a + b) % 2 ^ 64

/-- Unchecked u64 subtraction: a release-profile `-=` wraps modulo 2^64. -/
def wrapSub (a b : Nat) : Nat := (a + 2 ^ 64 - b % 2 ^ 64) % 2 ^ 64

namespace Processor

/-- `Processor::process_release` (processor.rs lines 228-280): accounts are
`[signer, state, destination, system_program]`. -/
def process_release (env : Env) (accounts : List AccountInfo) (amount : Nat)
    (program_id : List Nat) : Outcome :=
  match accounts[0]? with
  | none => ⟨.error .notEnoughAccountKeys, accounts, []⟩
  | some signer_account_info =>
    if signer_account_info.is_signer = false then
      ⟨.error .missingRequiredSignature, accounts, []⟩
    else
      match accounts[1]? with
      | none => ⟨.error .notEnoughAccountKeys, accounts, []⟩
      | some state_account_info =>
        if state_account_info.key ≠ (env.derive .seedInit program_id).1 then
          ⟨.error .invalidAccountData, accounts, []⟩
        else
          match Locker.unpack_unchecked state_account_info.data with
          | .error e => ⟨.error e, accounts, []⟩
          | .ok state_info =>
            if state_info.is_initialized = false then
              ⟨.error .uninitializedAccount, accounts, []⟩
            else if state_info.authority ≠ signer_account_info.key then
              ⟨.error .invalidAccountData, accounts, []⟩
            else
              let state_info2 :=
                { state_info with total_locked := wrapSub state_info.total_locked amount }
              if state_account_info.data.length ≠ 49 then
                ⟨.error .invalidAccountData, accounts, []⟩
              else
                let accounts1 := accounts.set 1
                  { state_account_info with data := Locker.packBytes state_info2 }
                match accounts[2]? with
                | none => ⟨.error .notEnoughAccountKeys, accounts1, []⟩
                | some destination_info =>
                  match accounts[3]? with
                  | none => ⟨.error .notEnoughAccountKeys, accounts1, []⟩
                  | some system_program_info =>
                    if system_program_info.key ≠ system_program_id then
                      ⟨.error .invalidAccountData, accounts1, []⟩
                    else
                      ⟨.ok (), accounts1,
                        [.transferLamports state_account_info.key destination_info.key amount]⟩

/-- `Processor::process_mint` (processor.rs lines 282-341): accounts are
`[signer, state, recipient, minter, token_program]`.  The final equality
test inside the embedded `spl_token::instruction::mint_to` constructor is
its own `check_program_account`. -/
def process_mint (env : Env) (accounts : List AccountInfo) (amount : Nat)
    (program_id : List Nat) : Outcome :=
  match accounts[0]? with
  | none => ⟨.error .notEnoughAccountKeys, accounts, []⟩
  | some signer_account_info =>
    if signer_account_info.is_signer = false then
      ⟨.error .missingRequiredSignature, accounts, []⟩
    else
      match accounts[1]? with
      | none => ⟨.error .notEnoughAccountKeys, accounts, []⟩
      | some state_account_info =>
        if state_account_info.key ≠ (env.derive .seedInit program_id).1 then
          ⟨.error .invalidAccountData, accounts, []⟩
        else
          match Locker.unpack_unchecked state_account_info.data with
          | .error e => ⟨.error e, accounts, []⟩
          | .ok state_info =>
            if state_info.is_initialized = false then
              ⟨.error .uninitializedAccount, accounts, []⟩
            else if state_info.authority ≠ signer_account_info.key then
              ⟨.error .invalidAccountData, accounts, []⟩
            else
              let state_info2 :=
                { state_info with total_minted := wrapAdd state_info.total_minted amount }
              if state_account_info.data.length ≠ 49 then
                ⟨.error .invalidAccountData, accounts, []⟩
              else
                let accounts1 := accounts.set 1
                  { state_account_info with data := Locker.packBytes state_info2 }
                match accounts[2]? with
                | none => ⟨.error .notEnoughAccountKeys, accounts1, []⟩
                | some recipient_account_info =>
                  match accounts[3]? with
                  | none => ⟨.error .notEnoughAccountKeys, accounts1, []⟩
                  | some minter_info =>
                    if minter_info.owner ≠ env.splTokenId then
                      ⟨.error .invalidAccountData, accounts1, []⟩
                    else
                      match accounts[4]? with
                      | none => ⟨.error .notEnoughAccountKeys, accounts1, []⟩
                      | some token_program_info =>
                        if env.splTokenId ≠ token_program_info.key then
                          ⟨.error .invalidAccountData, accounts1, []⟩
                        else if token_program_info.key ≠ env.splTokenId then
                          ⟨.error .incorrectProgramId, accounts1, []⟩
                        else
                          ⟨.ok (), accounts1,
                            [.mintTo token_program_info.key minter_info.key
                              recipient_account_info.key signer_account_info.key amount]⟩

/-- `Processor::process_lock_and_mint` (processor.rs lines 169-226):
accounts are `[signer, state, mintlog, system_program]`. -/
def process_lock_and_mint (env : Env) (accounts : List AccountInfo) (amount : Nat)
    (destination : List Nat) (program_id : List Nat) : Outcome :=
  match accounts[0]? with
  | none => ⟨.error .notEnoughAccountKeys, accounts, []⟩
  | some signer_account_info =>
    if signer_account_info.is_signer = false then
      ⟨.error .missingRequiredSignature, accounts, []⟩
    else
      match accounts[1]? with
      | none => ⟨.error .notEnoughAccountKeys, accounts, []⟩
      | some state_account_info =>
        if state_account_info.key ≠ (env.derive .seedInit program_id).1 then
          ⟨.error .invalidAccountData, accounts, []⟩
        else
          match accounts[2]? with
          | none => ⟨.error .notEnoughAccountKeys, accounts, []⟩
          | some mintlog_account_info =>
            if mintlog_account_info.key ≠ (env.derive .seedMint program_id).1 then
              ⟨.error .invalidAccountData, accounts, []⟩
            else
              match accounts[3]? with
              | none => ⟨.error .notEnoughAccountKeys, accounts, []⟩
              | some system_program_info =>
                if system_program_info.key ≠ system_program_id then
                  ⟨.error .invalidAccountData, accounts, []⟩
                else
                  match Locker.unpack_unchecked state_account_info.data with
                  | .error e => ⟨.error e, accounts, []⟩
                  | .ok state_info =>
                    if state_info.is_initialized = false then
                      ⟨.error .uninitializedAccount, accounts, []⟩
                    else
                      let state_info2 :=
                        { state_info with
                          total_locked := wrapAdd state_info.total_locked amount }
                      if state_account_info.data.length ≠ 49 then
                        ⟨.error .invalidAccountData, accounts, []⟩
                      else
                        let accounts1 := accounts.set 1
                          { state_account_info with data := Locker.packBytes state_info2 }
                        let effects1 : List Effect :=
                          [.transferLamports signer_account_info.key
                            state_account_info.key amount]
                        match LockAndMintLog.unpack_unchecked mintlog_account_info.data with
                        | .error e => ⟨.error e, accounts1, effects1⟩
                        | .ok log_info =>
                          match underlying_amount_from_spl_amount 18 9 amount with
                          | .error e => ⟨.error e, accounts1, effects1⟩
                          | .ok wide =>
                            let log_info2 :=
                              { log_info with amount := wide, recipient := destination }
                            if mintlog_account_info.data.length ≠ LOGSIZE then
                              ⟨.error .invalidAccountData, accounts1, effects1⟩
                            else
                              ⟨.ok (), accounts1.set 2
                                { mintlog_account_info with
                                  data := LockAndMintLog.packBytes log_info2 },
                                effects1⟩

end Processor

/-! ### Concrete fixtures for the processor claims -/

def authKey : List Nat := List.replicate 32 7

def seedKey : Seed → List Nat
  | .seedInit => List.replicate 32 10
  | .seedMint => List.replicate 32 11
  | .seedBurn => List.replicate 32 12

/-- A concrete environment: a deterministic derivation function and a
distinguished token-program id. -/
def env0 : Env := ⟨fun s _ => (seedKey s, 255), List.replicate 32 13⟩

def pid0 : List Nat := List.replicate 32 9

def destAccKey : List Nat := List.replicate 32 8

def dest0 : List Nat := List.replicate 32 4

/-- Release account set: the authority itself signs; the ledger holds
`total_locked = 0`. -/
def releaseAccounts : List AccountInfo :=
  [⟨authKey, true, pid0, []⟩,
   ⟨seedKey .seedInit, false, pid0, Locker.packBytes ⟨true, authKey, 0, 0⟩⟩,
   ⟨destAccKey, false, pid0, []⟩,
   ⟨system_program_id, false, pid0, []⟩]

/-- Account set whose signer differs from the stored
authority (for the C2 witness). whose signer differs from the stored -/
def badAccounts : List AccountInfo :=
  [⟨List.replicate 32 6, true, pid0, []⟩,
   ⟨seedKey .seedInit, false, pid0, Locker.packBytes ⟨true, authKey, 0, 0⟩⟩,
   ⟨destAccKey, false, pid0, []⟩,
   ⟨List.replicate 32 14, false, List.replicate 32 13, []⟩,
   ⟨List.replicate 32 13, false, pid0, []⟩]

/-- LockAndMint account set whose ledger counter sits at `u64::MAX`. -/
def lockOverflowAccounts : List AccountInfo :=
  [⟨authKey, true, pid0, []⟩,
   ⟨seedKey .seedInit, false, pid0, Locker.packBytes ⟨true, authKey, 2 ^ 64 - 1, 0⟩⟩,
   ⟨seedKey .seedMint, false, pid0, List.replicate 64 0⟩,
   ⟨system_program_id, false, pid0, []⟩]

/-- LockAndMint account set with `total_locked = 0` (no overflow). -/
def lockAccounts0 : List AccountInfo :=
  [⟨authKey, true, pid0, []⟩,
   ⟨seedKey .seedInit, false, pid0, Locker.packBytes ⟨true, authKey, 0, 0⟩⟩,
   ⟨seedKey .seedMint, false, pid0, List.replicate 64 0⟩,
   ⟨system_program_id, false, pid0, []⟩]

/-- Ledger record with both counters at `u64::MAX`, and the matching
LockAndMint / Mint account sets. -/
def lockerMax : Locker := ⟨true, authKey, 2 ^ 64 - 1, 2 ^ 64 - 1⟩

def wrapAccounts : List AccountInfo :=
  [⟨authKey, true, pid0, []⟩,
   ⟨seedKey .seedInit, false, pid0, Locker.packBytes lockerMax⟩,
   ⟨seedKey .seedMint, false, pid0, List.replicate 64 0⟩,
   ⟨system_program_id, false, pid0, []⟩]

def mintAccounts : List AccountInfo :=
  [⟨authKey, true, pid0, []⟩,
   ⟨seedKey .seedInit, false, pid0, Locker.packBytes lockerMax⟩,
   ⟨destAccKey, false, pid0, []⟩,
   ⟨List.replicate 32 14, false, List.replicate 32 13, []⟩,
   ⟨List.replicate 32 13, false, pid0, []⟩]

/-! ### Byte-encoding and list lemmas -/

theorem take_append_of_length {α : Type} {l1 : List α} (l2 : List α) {n : Nat}
    (h : l1.length = n) : (l1 ++ l2).take n = l1 := List.take_left' h

theorem drop_append_of_length {α : Type} {l1 : List α} (l2 : List α) {n : Nat}
    (h : l1.length = n) : (l1 ++ l2).drop n = l2 := List.drop_left' h

theorem take_of_length_eq {α : Type} {l : List α} {n : Nat} (h : l.length = n) :
    l.take n = l := by rw [← h]; exact List.take_length l

theorem natToLE_length (len n : Nat) : (natToLE len n).length = len := by
  induction len generalizing n with
  | zero => rfl
  | succ k ih => simp [natToLE, ih]

theorem natToBE_length (len n : Nat) : (natToBE len n).length = len := by
  simp [natToBE, natToLE_length]

theorem natFromLE_natToLE (len n : Nat) (h : n < 256 ^ len) :
    natFromLE (natToLE len n) = n := by
  induction len generalizing n with
  | zero =>
    have : n = 0 := by simpa using Nat.lt_one_iff.mp (by simpa using h)
    simp [this, natToLE, natFromLE]
  | succ k ih =>
    have hdiv : n / 256 < 256 ^ k := by
      rw [pow_succ] at h
      omega
    simp only [natToLE, natFromLE, ih (n / 256) hdiv]
    omega

theorem natFromBE_natToBE (len n : Nat) (h : n < 256 ^ len) :
    natFromBE (natToBE len n) = n := by
  simp [natToBE, natFromBE, natFromLE_natToLE len n h]

theorem Locker.packBytes_length (l : Locker) (ha : l.authority.length = 32) :
    (Locker.packBytes l).length = 49 := by
  cases l with
  | mk i a lk mt =>
    cases i <;> simp [Locker.packBytes, natToLE_length] <;> simp at ha <;> omega

theorem Locker.unpack_unchecked_length {src : List Nat} {l : Locker}
    (h : Locker.unpack_unchecked src = .ok l) : src.length = 49 := by
  by_cases hl : src.length = 49
  · exact hl
  · simp [Locker.unpack_unchecked, hl] at h

/-- In the deployed 18-vs-9 configuration widening always succeeds and is
exactly multiplication by 10^9. -/
theorem Processor.underlying_18_9 (x : Nat) (hx : x < 2 ^ 64) :
    Processor.underlying_amount_from_spl_amount 18 9 x = .ok (x * 10 ^ 9) := by
  simp [Processor.underlying_amount_from_spl_amount, exp10U256, mulU256]
  omega

/-- In the deployed 18-vs-9 configuration narrowing an exact multiple
`k * 10^9` with `k` a u64 value yields `k`. -/
theorem Processor.narrow_18_9_multiple (k : Nat) (hk : k < 2 ^ 64) :
    Processor.spl_amount_from_underlying_amount 18 9 (k * 10 ^ 9) = .ok k := by
  have hne : (18 : Nat) ≠ 9 := by norm_num
  have hlt : (9 : Nat) < 18 := by norm_num
  have hp : (10 : Nat) ^ (18 - 9) < 2 ^ 256 := by norm_num
  have hq : k * 10 ^ 9 / 10 ^ (18 - 9) = k := by
    norm_num [Nat.mul_div_cancel]
  simp only [Processor.spl_amount_from_underlying_amount, exp10U256,
    if_neg hne, if_pos hlt, if_pos hp, hq, if_pos hk]

/-! ### Claim C4 — decode failure classes -/

/-- C4 counterexample: a tag-0 buffer shorter than its 32-byte payload is
rejected with `InvalidAuthority` (`Custom 0`), not with `InvalidInstruction`
(`Custom 1`) as the claim states. -/
theorem unpack_tag0_short_not_invalid_instruction :
    LockerInstruction.unpack [0] = .error (.custom 0)
      ∧ LockerInstruction.unpack [0] ≠ .error (.custom 1) := by
  exact ⟨rfl, by decide⟩

/-- C4 (amended): an empty buffer fails with `InvalidInstruction`; a tag-1 or
tag-4 buffer with a payload shorter than 8 + address length fails with
`InvalidInstruction`; a tag-2 or tag-3 buffer whose payload length is not
exactly 8 fails with `InvalidInstruction`; a tag-0 buffer whose payload
length is not exactly 32 fails with `InvalidAuthority`; a tag of 5 or more
fails with the distinct `InvalidInstructionData` host error; decoding is
total, so a failing decode returns an error and never a partially-populated
operation. -/
theorem unpack_error_classes (input : List Nat) :
    (input = [] → LockerInstruction.unpack input = .error (.custom 1))
    ∧ (∀ tag rest, input = tag :: rest →
        ((tag = 1 ∨ tag = 4) → rest.length < 8 + DESTINATION_CHAIN_ADDRESS_LEN →
          LockerInstruction.unpack input = .error (.custom 1))
        ∧ ((tag = 2 ∨ tag = 3) → rest.length ≠ 8 →
          LockerInstruction.unpack input = .error (.custom 1))
        ∧ (tag = 0 → rest.length ≠ 32 →
          LockerInstruction.unpack input = .error (.custom 0))
        ∧ (5 ≤ tag → LockerInstruction.unpack input = .error .invalidInstructionData))
    ∧ ((∃ e, LockerInstruction.unpack input = .error e)
        ∨ (∃ op, LockerInstruction.unpack input = .ok op)) := by
  refine ⟨?_, ?_, ?_⟩
  · intro h; subst h; rfl
  · intro tag rest h; subst h
    refine ⟨?_, ?_, ?_, ?_⟩
    · intro htag hlen
      simp only [DESTINATION_CHAIN_ADDRESS_LEN] at hlen
      rcases htag with h1 | h4 <;> subst_vars <;>
        simp [LockerInstruction.unpack, DESTINATION_CHAIN_ADDRESS_LEN,
          LockerError.toPErr] <;> omega
    · intro htag hlen
      rcases htag with h2 | h3 <;> subst_vars <;>
        simp [LockerInstruction.unpack, hlen, LockerError.toPErr]
    · intro htag hlen
      subst htag
      by_cases hge : 32 ≤ rest.length <;>
        simp [LockerInstruction.unpack, hge, hlen, LockerError.toPErr]
    · intro h5
      obtain ⟨t, rfl⟩ : ∃ t, tag = t + 5 := ⟨tag - 5, by omega⟩
      rfl
  · rcases hu : LockerInstruction.unpack input with e | op
    · exact .inl ⟨e, rfl⟩
    · exact .inr ⟨op, rfl⟩

/-- C4 witness: a concrete buffer of each amended failure class. -/
theorem unpack_error_classes_witness :
    LockerInstruction.unpack [1, 0, 0] = .error (.custom 1)
      ∧ LockerInstruction.unpack [2] = .error (.custom 1)
      ∧ LockerInstruction.unpack [0, 9] = .error (.custom 0)
      ∧ LockerInstruction.unpack [7] = .error .invalidInstructionData := by
  refine ⟨?_, ?_, ?_, ?_⟩
  · exact ((unpack_error_classes [1, 0, 0]).2.1 1 [0, 0] rfl).1 (.inl rfl) (by decide)
  · exact ((unpack_error_classes [2]).2.1 2 [] rfl).2.1 (.inl rfl) (by decide)
  · exact ((unpack_error_classes [0, 9]).2.1 0 [9] rfl).2.2.1 rfl (by decide)
  · exact ((unpack_error_classes [7]).2.1 7 [] rfl).2.2.2 (by decide)

/-! ### Claim C5 — decode success and round-trip -/

/-- C5 counterexample: a tag-2 (Release) buffer with a 9-byte payload is at
least as long as the required 8 bytes, yet decoding fails with
`InvalidInstruction` because the code demands the exact length. -/
theorem unpack_tag2_longer_payload_fails :
    (9 : Nat) ≥ 8
      ∧ LockerInstruction.unpack (2 :: (natToLE 8 5 ++ [0])) = .error (.custom 1) := by
  exact ⟨by decide, rfl⟩

/-- C5 (amended): decoding succeeds with the little-endian (amounts) and
byte-for-byte (authority, destination) interpretation of the payload — for
tags 1 and 4 on any payload at least as long as required, with extra bytes
ignored, but for tags 0, 2 and 3 only on a payload of exactly the required
length — and re-encoding a decoded operation reconstructs identical field
values: encoding any well-formed operation and decoding it is the
identity. -/
theorem unpack_packBytes_roundtrip :
    (∀ i : LockerInstruction, i.wf →
      LockerInstruction.unpack i.packBytes = .ok i)
    ∧ (∀ amt dest extra, amt < 2 ^ 64 → dest.length = DESTINATION_CHAIN_ADDRESS_LEN →
        LockerInstruction.unpack (1 :: (natToLE 8 amt ++ dest ++ extra))
          = .ok (.lockAndMint amt dest)
        ∧ LockerInstruction.unpack (4 :: (natToLE 8 amt ++ dest ++ extra))
          = .ok (.burnAndRelease amt dest)) := by
  have h2568 : (256 : Nat) ^ 8 = 2 ^ 64 := by norm_num
  have hfle : ∀ amt : Nat, amt < 2 ^ 64 → natFromLE (natToLE 8 amt) = amt := by
    intro amt hamt
    exact natFromLE_natToLE 8 amt (by rw [h2568]; exact hamt)
  have hgen : ∀ amt dest extra, amt < 2 ^ 64 →
      dest.length = DESTINATION_CHAIN_ADDRESS_LEN →
      natFromLE ((natToLE 8 amt ++ (dest ++ extra)).take 8) = amt
        ∧ ((natToLE 8 amt ++ (dest ++ extra)).drop 8).take DESTINATION_CHAIN_ADDRESS_LEN
            = dest
        ∧ 8 + DESTINATION_CHAIN_ADDRESS_LEN ≤ (natToLE 8 amt ++ (dest ++ extra)).length := by
    intro amt dest extra hamt hd
    refine ⟨?_, ?_, ?_⟩
    · rw [take_append_of_length _ (natToLE_length 8 amt), hfle amt hamt]
    · rw [drop_append_of_length _ (natToLE_length 8 amt),
        take_append_of_length _ hd]
    · simp [natToLE_length, hd]
  constructor
  · intro i hwf
    cases i with
    | locInit a =>
      have ha : a.length = 32 := hwf
      simp [LockerInstruction.unpack, LockerInstruction.packBytes, ha]
    | lockAndMint amt d =>
      obtain ⟨hamt, hd⟩ := hwf
      have h := hgen amt d [] hamt hd
      simp only [List.append_nil] at h
      simp [LockerInstruction.unpack, LockerInstruction.packBytes, h.1, h.2.1,
        natToLE_length, hd, hfle amt hamt]
    | release amt =>
      have hamt : amt < 2 ^ 64 := hwf
      simp [LockerInstruction.unpack, LockerInstruction.packBytes,
        LockerInstruction.unpack_amount, natToLE_length,
        take_of_length_eq (natToLE_length 8 amt), hfle amt hamt]
    | mint amt =>
      have hamt : amt < 2 ^ 64 := hwf
      simp [LockerInstruction.unpack, LockerInstruction.packBytes,
        LockerInstruction.unpack_amount, natToLE_length,
        take_of_length_eq (natToLE_length 8 amt), hfle amt hamt]
    | burnAndRelease amt d =>
      obtain ⟨hamt, hd⟩ := hwf
      have h := hgen amt d [] hamt hd
      simp only [List.append_nil] at h
      simp [LockerInstruction.unpack, LockerInstruction.packBytes, h.1, h.2.1,
        natToLE_length, hd, hfle amt hamt]
  · intro amt dest extra hamt hd
    have h := hgen amt dest extra hamt hd
    constructor <;>
    · simp only [LockerInstruction.unpack, List.append_assoc]
      rw [if_pos h.2.2, h.1, h.2.1]

/-- C5 witness: a concrete round-trip for each operation and a concrete
decode with trailing bytes ignored. -/
theorem unpack_packBytes_roundtrip_witness :
    LockerInstruction.unpack (LockerInstruction.release 5).packBytes
        = .ok (.release 5)
      ∧ LockerInstruction.unpack
          (1 :: (natToLE 8 3 ++ List.replicate 32 9 ++ [0, 0]))
          = .ok (.lockAndMint 3 (List.replicate 32 9)) := by
  constructor
  · exact unpack_packBytes_roundtrip.1 (.release 5) (show (5 : Nat) < 2 ^ 64 by decide)
  · exact (unpack_packBytes_roundtrip.2 3 (List.replicate 32 9) [0, 0]
      (by decide) (by decide)).1

/-! ### Claim C9 — ledger record pack/unpack identity -/

/-- C9: packing a ledger-singleton record into its 49-byte layout and
unpacking it again returns the identical record, for every boolean flag,
every 32-byte authority and all u64 counter values. -/
theorem locker_pack_unpack_roundtrip (l : Locker) (ha : l.authority.length = 32)
    (hl : l.total_locked < 2 ^ 64) (hm : l.total_minted < 2 ^ 64) :
    Locker.unpack_unchecked (Locker.packBytes l) = .ok l := by
  have h2568 : (256 : Nat) ^ 8 = 2 ^ 64 := by norm_num
  obtain ⟨flag, a, lk, mt⟩ := l
  simp only [Locker.packBytes] at *
  have hlen : ((if flag then [1] else [0]) ++ a ++ natToLE 8 lk ++ natToLE 8 mt).length = 49 := by
    cases flag <;> simp [natToLE_length, ha]
  have hflag : ((if flag then [1] else [0]) : List Nat).length = 1 := by cases flag <;> rfl
  have htake1 : ((if flag then [1] else [0]) ++ (a ++ (natToLE 8 lk ++ natToLE 8 mt))).take 1
      = (if flag then [1] else [0]) := take_append_of_length _ hflag
  have hdrop1 : ((if flag then [1] else [0]) ++ (a ++ (natToLE 8 lk ++ natToLE 8 mt))).drop 1
      = a ++ (natToLE 8 lk ++ natToLE 8 mt) := drop_append_of_length _ hflag
  have hauth : (a ++ (natToLE 8 lk ++ natToLE 8 mt)).take 32 = a :=
    take_append_of_length _ ha
  have hdrop33 : ((if flag then [1] else [0]) ++ (a ++ (natToLE 8 lk ++ natToLE 8 mt))).drop 33
      = natToLE 8 lk ++ natToLE 8 mt := by
    have : (33 : Nat) = 1 + 32 := by norm_num
    rw [this, ← List.drop_drop, hdrop1, drop_append_of_length _ ha]
  have hdrop41 : ((if flag then [1] else [0]) ++ (a ++ (natToLE 8 lk ++ natToLE 8 mt))).drop 41
      = natToLE 8 mt := by
    have : (41 : Nat) = 33 + 8 := by norm_num
    rw [this, ← List.drop_drop, hdrop33, drop_append_of_length _ (natToLE_length 8 lk)]
  have hlk : (natToLE 8 lk ++ natToLE 8 mt).take 8 = natToLE 8 lk :=
    take_append_of_length _ (natToLE_length 8 lk)
  rw [List.append_assoc, List.append_assoc] at hlen
  simp only [Locker.unpack_unchecked, Locker.unpack_from_slice, List.append_assoc,
    hlen, if_true, hdrop1]
  rw [if_neg (by omega)]
  simp only [htake1, hdrop33, hdrop41, hauth, hlk,
    take_of_length_eq (natToLE_length 8 mt),
    natFromLE_natToLE 8 lk (by rw [h2568]; exact hl),
    natFromLE_natToLE 8 mt (by rw [h2568]; exact hm)]
  cases flag <;> rfl

/-- C9 witness: the round-trip at the extreme counter values `u64::MAX`. -/
theorem locker_pack_unpack_roundtrip_witness :
    Locker.unpack_unchecked
        (Locker.packBytes ⟨true, List.replicate 32 255, 2 ^ 64 - 1, 2 ^ 64 - 1⟩)
      = .ok ⟨true, List.replicate 32 255, 2 ^ 64 - 1, 2 ^ 64 - 1⟩ :=
  locker_pack_unpack_roundtrip ⟨true, List.replicate 32 255, 2 ^ 64 - 1, 2 ^ 64 - 1⟩
    (by decide) (by decide) (by decide)

/-! ### Claims C6, C7, C8 — the decimal rescaler -/

/-- C6 counterexample: with underlying precision 78 and native precision 0
the quotient `0 / 10^78 = 0` fits in a u64, yet the narrowing conversion
neither returns it nor fails with the decimal-conversion error
(`Custom 2`) — `U256::exp10(78)` overflows 256 bits and panics. -/
theorem narrow_exp10_overflow_panics :
    Processor.spl_amount_from_underlying_amount 78 0 0 = .error .panicAbort
      ∧ Processor.spl_amount_from_underlying_amount 78 0 0 ≠ .ok (0 / 10 ^ 78)
      ∧ Processor.spl_amount_from_underlying_amount 78 0 0
          ≠ .error (.custom 2) := by
  refine ⟨?_, ?_, ?_⟩ <;>
    simp [Processor.spl_amount_from_underlying_amount, exp10U256,
      show ¬ (10 : Nat) ^ 78 < 2 ^ 256 by norm_num]

/-- C6 (amended): when underlying precision strictly exceeds native
precision by at most 77 (so that `10^(diff)` fits in 256 bits — true in
particular for the deployed 18-vs-9 configuration), the conversion returns
the truncating quotient by `10^(diff)` when that quotient fits in a u64 and
fails with the decimal-conversion error (`Custom 2`) when it does not; when
the difference is 78 or more the `10^(diff)` computation overflows 256 bits
and aborts with a panic; and when native precision strictly exceeds
underlying precision the conversion always fails with the
decimal-conversion error. -/
theorem narrow_amount_spec (ud sd a : Nat) :
    (sd < ud → ud - sd ≤ 77 → a < 2 ^ 256 →
      Processor.spl_amount_from_underlying_amount ud sd a
        = if a / 10 ^ (ud - sd) < 2 ^ 64 then .ok (a / 10 ^ (ud - sd))
          else .error (.custom 2))
    ∧ (sd < ud → 78 ≤ ud - sd →
      Processor.spl_amount_from_underlying_amount ud sd a = .error .panicAbort)
    ∧ (ud < sd →
      Processor.spl_amount_from_underlying_amount ud sd a = .error (.custom 2)) := by
  refine ⟨?_, ?_, ?_⟩
  · intro hlt hdiff _
    have hne : ud ≠ sd := by omega
    have hp : (10 : Nat) ^ (ud - sd) < 2 ^ 256 := by
      calc (10 : Nat) ^ (ud - sd) ≤ 10 ^ 77 := Nat.pow_le_pow_right (by norm_num) hdiff
        _ < 2 ^ 256 := by norm_num
    simp only [Processor.spl_amount_from_underlying_amount, exp10U256,
      LockerError.toPErr, if_neg hne, if_pos hlt, if_pos hp]
  · intro hlt hdiff
    have hne : ud ≠ sd := by omega
    have hp : ¬ (10 : Nat) ^ (ud - sd) < 2 ^ 256 := by
      have : (10 : Nat) ^ 78 ≤ 10 ^ (ud - sd) := Nat.pow_le_pow_right (by norm_num) hdiff
      have h78 : (2 : Nat) ^ 256 < 10 ^ 78 := by norm_num
      omega
    simp only [Processor.spl_amount_from_underlying_amount, exp10U256,
      if_neg hne, if_pos hlt, if_neg hp]
  · intro hlt
    have hne : ud ≠ sd := by omega
    have hnl : ¬ sd < ud := by omega
    simp [Processor.spl_amount_from_underlying_amount, hne, hnl, LockerError.toPErr]

/-- C6 witness: narrowing `10^18` from 18 to 9 decimals yields `10^9`;
narrowing an amount whose quotient overflows a u64 fails with `Custom 2`;
the unsupported widening direction (9 underlying, 18 native) fails with
`Custom 2`. -/
theorem narrow_amount_spec_witness :
    Processor.spl_amount_from_underlying_amount 18 9 (10 ^ 18) = .ok (10 ^ 9)
      ∧ Processor.spl_amount_from_underlying_amount 18 9 (2 ^ 64 * 10 ^ 9)
          = .error (.custom 2)
      ∧ Processor.spl_amount_from_underlying_amount 9 18 5 = .error (.custom 2) := by
  refine ⟨?_, ?_, ?_⟩
  · have h := (narrow_amount_spec 18 9 (10 ^ 18)).1 (by norm_num) (by norm_num) (by norm_num)
    rw [h, if_pos (by norm_num)]
    norm_num
  · have h := (narrow_amount_spec 18 9 (2 ^ 64 * 10 ^ 9)).1 (by norm_num) (by norm_num)
      (by norm_num)
    rw [h, if_neg (by norm_num)]
  · exact (narrow_amount_spec 9 18 5).2.2 (by norm_num)

/-- C7 counterexample: with underlying precision 78 and native precision 0
the widening of the amount 0 should be `0 * 10^78 = 0`, but the conversion
does not succeed — `U256::exp10(78)` overflows 256 bits and panics. -/
theorem widen_exp10_overflow_panics :
    Processor.underlying_amount_from_spl_amount 78 0 0 = .error .panicAbort
      ∧ Processor.underlying_amount_from_spl_amount 78 0 0 ≠ .ok (0 * 10 ^ 78) := by
  constructor <;>
    simp [Processor.underlying_amount_from_spl_amount, exp10U256,
      show ¬ (10 : Nat) ^ 78 < 2 ^ 256 by norm_num]

/-- C7 (amended): with equal precisions the widening returns the amount
unchanged; with underlying precision strictly greater than native precision
it returns exactly the amount multiplied by `10^(diff)` computed in a
256-bit integer whenever `10^(diff)` and the product fit in 256 bits — in
particular it always succeeds, losing no information, in the deployed
18-vs-9 configuration — and aborts with an overflow panic otherwise. -/
theorem widen_amount_spec :
    (∀ ud x, Processor.underlying_amount_from_spl_amount ud ud x = .ok x)
    ∧ (∀ ud sd x, sd < ud → 10 ^ (ud - sd) < 2 ^ 256 → x * 10 ^ (ud - sd) < 2 ^ 256 →
        Processor.underlying_amount_from_spl_amount ud sd x = .ok (x * 10 ^ (ud - sd)))
    ∧ (∀ x, x < 2 ^ 64 →
        Processor.underlying_amount_from_spl_amount 18 9 x = .ok (x * 10 ^ 9)) := by
  refine ⟨?_, ?_, ?_⟩
  · intro ud x
    simp [Processor.underlying_amount_from_spl_amount]
  · intro ud sd x hlt hp hm
    have hne : ud ≠ sd := by omega
    simp only [Processor.underlying_amount_from_spl_amount, exp10U256, mulU256,
      if_neg hne, if_pos hlt, if_pos hp, if_pos hm]
  · exact fun x hx => Processor.underlying_18_9 x hx

/-- C7 witness: identity at equal precisions and exact widening at the
deployed 18-vs-9 configuration. -/
theorem widen_amount_spec_witness :
    Processor.underlying_amount_from_spl_amount 9 9 5 = .ok 5
      ∧ Processor.underlying_amount_from_spl_amount 18 9 7 = .ok (7 * 10 ^ 9) := by
  exact ⟨widen_amount_spec.1 9 5, widen_amount_spec.2.2 7 (by norm_num)⟩

/-- C8: for underlying precision 18 and native precision 9, narrowing after
widening recovers every u64 amount exactly; and widening after narrowing
recovers every underlying amount that is an exact multiple of `10^9` whose
narrowed value fits in a u64. -/
theorem rescale_roundtrip :
    (∀ x, x < 2 ^ 64 →
      Processor.underlying_amount_from_spl_amount 18 9 x = .ok (x * 10 ^ 9)
        ∧ Processor.spl_amount_from_underlying_amount 18 9 (x * 10 ^ 9) = .ok x)
    ∧ (∀ a k, k < 2 ^ 64 → a = k * 10 ^ 9 →
      Processor.spl_amount_from_underlying_amount 18 9 a = .ok (a / 10 ^ 9)
        ∧ Processor.underlying_amount_from_spl_amount 18 9 (a / 10 ^ 9) = .ok a) := by
  have hnarrow : ∀ k, k < 2 ^ 64 →
      Processor.spl_amount_from_underlying_amount 18 9 (k * 10 ^ 9) = .ok k :=
    fun k hk => Processor.narrow_18_9_multiple k hk
  constructor
  · intro x hx
    exact ⟨Processor.underlying_18_9 x hx, hnarrow x hx⟩
  · intro a k hk ha
    subst ha
    have hq : k * 10 ^ 9 / 10 ^ 9 = k := by
      norm_num [Nat.mul_div_cancel]
    rw [hq]
    exact ⟨hnarrow k hk, Processor.underlying_18_9 k hk⟩

/-- C8 witness: the round-trip at `x = 3` and at the multiple `2 * 10^9`. -/
theorem rescale_roundtrip_witness :
    (Processor.underlying_amount_from_spl_amount 18 9 3 = .ok (3 * 10 ^ 9)
      ∧ Processor.spl_amount_from_underlying_amount 18 9 (3 * 10 ^ 9) = .ok 3)
    ∧ (Processor.spl_amount_from_underlying_amount 18 9 (2 * 10 ^ 9)
          = .ok (2 * 10 ^ 9 / 10 ^ 9)
      ∧ Processor.underlying_amount_from_spl_amount 18 9 (2 * 10 ^ 9 / 10 ^ 9)
          = .ok (2 * 10 ^ 9)) := by
  exact ⟨rescale_roundtrip.1 3 (by norm_num),
    rescale_roundtrip.2 (2 * 10 ^ 9) 2 (by norm_num) rfl⟩

/-! ### Claim C2 — the authority gate on Release and Mint -/

/-- C2: `process_release` and `process_mint` succeed only when the invoking
signer's key equals the authority stored in the ledger singleton, and when
the signer differs from the stored authority both operations abort with an
error while the account state is left unchanged (the authority check runs
before any state write). -/
theorem release_mint_authority_gate (env : Env) (accounts : List AccountInfo)
    (amount : Nat) (program_id : List Nat)
    (signer state_acc : AccountInfo) (st : Locker)
    (h0 : accounts[0]? = some signer)
    (h1 : accounts[1]? = some state_acc)
    (hst : Locker.unpack_unchecked state_acc.data = .ok st) :
    ((Processor.process_release env accounts amount program_id).result = .ok ()
        → st.authority = signer.key)
    ∧ ((Processor.process_mint env accounts amount program_id).result = .ok ()
        → st.authority = signer.key)
    ∧ (st.authority ≠ signer.key →
        ((∃ e, (Processor.process_release env accounts amount program_id).result
              = .error e)
          ∧ (Processor.process_release env accounts amount program_id).accounts
              = accounts)
        ∧ ((∃ e, (Processor.process_mint env accounts amount program_id).result
              = .error e)
          ∧ (Processor.process_mint env accounts amount program_id).accounts
              = accounts)) := by
  refine ⟨?_, ?_, ?_⟩
  · intro hok
    simp only [Processor.process_release, h0, h1, hst] at hok
    by_cases hs : signer.is_signer = false
    · rw [if_pos hs] at hok; exact absurd hok (by simp)
    rw [if_neg hs] at hok
    by_cases hk : state_acc.key ≠ (env.derive .seedInit program_id).1
    · rw [if_pos hk] at hok; exact absurd hok (by simp)
    rw [if_neg hk] at hok
    by_cases hi : st.is_initialized = false
    · rw [if_pos hi] at hok; exact absurd hok (by simp)
    rw [if_neg hi] at hok
    by_cases ha : st.authority ≠ signer.key
    · rw [if_pos ha] at hok; exact absurd hok (by simp)
    · exact not_not.mp ha
  · intro hok
    simp only [Processor.process_mint, h0, h1, hst] at hok
    by_cases hs : signer.is_signer = false
    · rw [if_pos hs] at hok; exact absurd hok (by simp)
    rw [if_neg hs] at hok
    by_cases hk : state_acc.key ≠ (env.derive .seedInit program_id).1
    · rw [if_pos hk] at hok; exact absurd hok (by simp)
    rw [if_neg hk] at hok
    by_cases hi : st.is_initialized = false
    · rw [if_pos hi] at hok; exact absurd hok (by simp)
    rw [if_neg hi] at hok
    by_cases ha : st.authority ≠ signer.key
    · rw [if_pos ha] at hok; exact absurd hok (by simp)
    · exact not_not.mp ha
  · intro hne
    have hrel : (∃ e, (Processor.process_release env accounts amount program_id).result
          = .error e)
        ∧ (Processor.process_release env accounts amount program_id).accounts
          = accounts := by
      simp only [Processor.process_release, h0, h1, hst]
      by_cases hs : signer.is_signer = false
      · rw [if_pos hs]; exact ⟨⟨_, rfl⟩, rfl⟩
      rw [if_neg hs]
      by_cases hk : state_acc.key ≠ (env.derive .seedInit program_id).1
      · rw [if_pos hk]; exact ⟨⟨_, rfl⟩, rfl⟩
      rw [if_neg hk]
      by_cases hi : st.is_initialized = false
      · rw [if_pos hi]; exact ⟨⟨_, rfl⟩, rfl⟩
      rw [if_neg hi, if_pos hne]
      exact ⟨⟨_, rfl⟩, rfl⟩
    have hmint : (∃ e, (Processor.process_mint env accounts amount program_id).result
          = .error e)
        ∧ (Processor.process_mint env accounts amount program_id).accounts
          = accounts := by
      simp only [Processor.process_mint, h0, h1, hst]
      by_cases hs : signer.is_signer = false
      · rw [if_pos hs]; exact ⟨⟨_, rfl⟩, rfl⟩
      rw [if_neg hs]
      by_cases hk : state_acc.key ≠ (env.derive .seedInit program_id).1
      · rw [if_pos hk]; exact ⟨⟨_, rfl⟩, rfl⟩
      rw [if_neg hk]
      by_cases hi : st.is_initialized = false
      · rw [if_pos hi]; exact ⟨⟨_, rfl⟩, rfl⟩
      rw [if_neg hi, if_pos hne]
      exact ⟨⟨_, rfl⟩, rfl⟩
    exact ⟨hrel, hmint⟩

/-! ### Claims C3 and C10 — LockAndMint effects and unchecked additions -/

/-- C10: the counter increments of LockAndMint (`total_locked`) and Mint
(`total_minted`) are unchecked u64 additions: on a sum exceeding
`u64::MAX` the operation still succeeds — no abort happens on the
addition — and the stored counter is the sum reduced modulo 2^64. -/
theorem unchecked_counter_addition_wraps (env : Env) (program_id : List Nat)
    (signer state_acc log_acc sys_acc recip minter tokp : AccountInfo)
    (st : Locker) (amount : Nat) (destination : List Nat)
    (hs : signer.is_signer = true)
    (hsk : state_acc.key = (env.derive .seedInit program_id).1)
    (hlk : log_acc.key = (env.derive .seedMint program_id).1)
    (hyk : sys_acc.key = system_program_id)
    (hst : Locker.unpack_unchecked state_acc.data = .ok st)
    (hinit : st.is_initialized = true)
    (hauth : st.authority = signer.key)
    (hlog : log_acc.data.length = 64)
    (hamt : amount < 2 ^ 64)
    (hoverL : 2 ^ 64 ≤ st.total_locked + amount)
    (hoverM : 2 ^ 64 ≤ st.total_minted + amount)
    (hmo : minter.owner = env.splTokenId)
    (htk : tokp.key = env.splTokenId) :
    ((Processor.process_lock_and_mint env [signer, state_acc, log_acc, sys_acc]
          amount destination program_id).result = .ok ()
      ∧ (Processor.process_lock_and_mint env [signer, state_acc, log_acc, sys_acc]
            amount destination program_id).accounts[1]?.map AccountInfo.data
          = some (Locker.packBytes
              { st with total_locked := (st.total_locked + amount) % 2 ^ 64 }))
    ∧ ((Processor.process_mint env [signer, state_acc, recip, minter, tokp]
          amount program_id).result = .ok ()
      ∧ (Processor.process_mint env [signer, state_acc, recip, minter, tokp]
            amount program_id).accounts[1]?.map AccountInfo.data
          = some (Locker.packBytes
              { st with total_minted := (st.total_minted + amount) % 2 ^ 64 })) := by
  have hlen49 := Locker.unpack_unchecked_length hst
  constructor
  · simp only [Processor.process_lock_and_mint, List.getElem?_cons_zero,
      List.getElem?_cons_succ, hs, hsk, hlk, hyk, hst, hinit, hlen49, hlog,
      LOGSIZE, DESTINATION_CHAIN_ADDRESS_LEN, LockAndMintLog.unpack_unchecked,
      LockAndMintLog.unpack_from_slice, Processor.underlying_18_9 amount hamt,
      wrapAdd, List.set_cons_succ, List.set_cons_zero]
    simp
  · simp only [Processor.process_mint, List.getElem?_cons_zero,
      List.getElem?_cons_succ, hs, hsk, hst, hinit, hauth, hlen49, hmo, htk,
      wrapAdd, List.set_cons_succ, List.set_cons_zero]
    simp

/-- C3 (amended): a successful LockAndMint of amount `A` with destination
`D` on an initialized ledger stores `total_locked + A` reduced modulo 2^64 —
which is an increase by exactly `A` whenever the sum does not overflow a
u64 — and overwrites the mint-event log with the amount rescaled from
native 9-decimal to underlying 18-decimal precision (`A * 10^9`, stored
big-endian in 32 bytes) followed by the supplied destination bytes exactly,
with no truncation or padding change. -/
theorem lock_and_mint_effects (env : Env) (program_id : List Nat)
    (signer state_acc log_acc sys_acc : AccountInfo)
    (st : Locker) (amount : Nat) (destination : List Nat)
    (hs : signer.is_signer = true)
    (hsk : state_acc.key = (env.derive .seedInit program_id).1)
    (hlk : log_acc.key = (env.derive .seedMint program_id).1)
    (hyk : sys_acc.key = system_program_id)
    (hst : Locker.unpack_unchecked state_acc.data = .ok st)
    (hinit : st.is_initialized = true)
    (hlog : log_acc.data.length = 64)
    (hno : st.total_locked + amount < 2 ^ 64) :
    (Processor.process_lock_and_mint env [signer, state_acc, log_acc, sys_acc]
        amount destination program_id).result = .ok ()
    ∧ (Processor.process_lock_and_mint env [signer, state_acc, log_acc, sys_acc]
          amount destination program_id).accounts[1]?.map AccountInfo.data
        = some (Locker.packBytes { st with total_locked := st.total_locked + amount })
    ∧ (Processor.process_lock_and_mint env [signer, state_acc, log_acc, sys_acc]
          amount destination program_id).accounts[2]?.map AccountInfo.data
        = some (natToBE 32 (amount * 10 ^ 9) ++ destination) := by
  have hamt : amount < 2 ^ 64 := by omega
  have hlen49 := Locker.unpack_unchecked_length hst
  have hmod : (st.total_locked + amount) % 2 ^ 64 = st.total_locked + amount :=
    Nat.mod_eq_of_lt hno
  simp only [Processor.process_lock_and_mint, List.getElem?_cons_zero,
    List.getElem?_cons_succ, hs, hsk, hlk, hyk, hst, hinit, hlen49, hlog,
    LOGSIZE, DESTINATION_CHAIN_ADDRESS_LEN, LockAndMintLog.unpack_unchecked,
    LockAndMintLog.unpack_from_slice, Processor.underlying_18_9 amount hamt,
    wrapAdd, hmod, List.set_cons_succ, List.set_cons_zero]
  simp [LockAndMintLog.packBytes]

/-! ### Claim C1 — Release underflow -/

/-- C1 (code-bug evaluation): a Release of amount 1 against a ledger whose
`total_locked` is 0 does not abort — the unchecked u64 subtraction wraps the
counter to `2^64 - 1`, the call succeeds, and the outgoing native transfer
of the requested lamports from the bridge-owned singleton account is
attempted, contradicting the specified fatal abort before any external
transfer. -/
theorem release_underflow_wraps_and_transfers :
    (Processor.process_release env0 releaseAccounts 1 pid0).result = .ok ()
      ∧ (Processor.process_release env0 releaseAccounts 1 pid0).effects
          = [.transferLamports (seedKey .seedInit) destAccKey 1]
      ∧ (Processor.process_release env0 releaseAccounts 1 pid0).accounts[1]?.map
            AccountInfo.data
          = some (Locker.packBytes ⟨true, authKey, 2 ^ 64 - 1, 0⟩) :=
  ⟨rfl, rfl, rfl⟩

theorem release_mint_authority_gate_witness :
    ((∃ e, (Processor.process_release env0 badAccounts 1 pid0).result = .error e)
      ∧ (Processor.process_release env0 badAccounts 1 pid0).accounts = badAccounts)
    ∧ ((∃ e, (Processor.process_mint env0 badAccounts 1 pid0).result = .error e)
      ∧ (Processor.process_mint env0 badAccounts 1 pid0).accounts = badAccounts) :=
  (release_mint_authority_gate env0 badAccounts 1 pid0 _ _ _ rfl rfl rfl).2.2
    (by decide)

/-- C3 counterexample: LockAndMint of amount 1 on a ledger whose
`total_locked` is `u64::MAX` succeeds, but the stored counter becomes 0
rather than increasing by exactly 1 (the mathematical sum `2^64` does not
fit in a u64 and is reduced modulo 2^64). -/
theorem lock_and_mint_overflow_counterexample :
    (Processor.process_lock_and_mint env0 lockOverflowAccounts 1 dest0 pid0).result
        = .ok ()
      ∧ (Processor.process_lock_and_mint env0 lockOverflowAccounts 1 dest0
            pid0).accounts[1]?.map AccountInfo.data
          = some (Locker.packBytes ⟨true, authKey, 0, 0⟩)
      ∧ (2 ^ 64 - 1) + 1 ≠ 0 :=
  ⟨rfl, rfl, by decide⟩

theorem lock_and_mint_effects_witness :
    (Processor.process_lock_and_mint env0 lockAccounts0 2 dest0 pid0).result = .ok ()
      ∧ (Processor.process_lock_and_mint env0 lockAccounts0 2 dest0
            pid0).accounts[1]?.map AccountInfo.data
          = some (Locker.packBytes
              { Locker.mk true authKey 0 0 with total_locked := 0 + 2 })
      ∧ (Processor.process_lock_and_mint env0 lockAccounts0 2 dest0
            pid0).accounts[2]?.map AccountInfo.data
          = some (natToBE 32 (2 * 10 ^ 9) ++ dest0) :=
  lock_and_mint_effects env0 pid0 ⟨authKey, true, pid0, []⟩
    ⟨seedKey .seedInit, false, pid0, Locker.packBytes ⟨true, authKey, 0, 0⟩⟩
    ⟨seedKey .seedMint, false, pid0, List.replicate 64 0⟩
    ⟨system_program_id, false, pid0, []⟩
    ⟨true, authKey, 0, 0⟩ 2 dest0 rfl rfl rfl rfl rfl rfl rfl (by decide)

/-- C10 witness: both counters at `u64::MAX`, an addition of 5 wraps to 4
while both operations succeed. -/
theorem unchecked_counter_addition_wraps_witness :
    ((Processor.process_lock_and_mint env0 wrapAccounts 5 dest0 pid0).result = .ok ()
      ∧ (Processor.process_lock_and_mint env0 wrapAccounts 5 dest0
            pid0).accounts[1]?.map AccountInfo.data
          = some (Locker.packBytes
              { lockerMax with total_locked := (lockerMax.total_locked + 5) % 2 ^ 64 }))
    ∧ ((Processor.process_mint env0 mintAccounts 5 pid0).result = .ok ()
      ∧ (Processor.process_mint env0 mintAccounts 5 pid0).accounts[1]?.map
            AccountInfo.data
          = some (Locker.packBytes
              { lockerMax with total_minted := (lockerMax.total_minted + 5) % 2 ^ 64 })) :=
  unchecked_counter_addition_wraps env0 pid0 ⟨authKey, true, pid0, []⟩
    ⟨seedKey .seedInit, false, pid0, Locker.packBytes lockerMax⟩
    ⟨seedKey .seedMint, false, pid0, List.replicate 64 0⟩
    ⟨system_program_id, false, pid0, []⟩
    ⟨destAccKey, false, pid0, []⟩
    ⟨List.replicate 32 14, false, List.replicate 32 13, []⟩
    ⟨List.replicate 32 13, false, pid0, []⟩
    lockerMax 5 dest0 rfl rfl rfl rfl rfl rfl rfl rfl (by decide) (by decide)
    (by decide) rfl rfl

end SolEthBridge
